import Mathlib

/- Verification development for the ndxCraft document synchronization and
   persistence engine.  The definitions below are shallow embeddings of:
   - the shadow persistence store and the integrity guard (src/db.go with the
     frontend-facing wrappers in src/app.go),
   - the document controller of the frontend App component
     (src/unnamed/part_002: performOpenFile, handleSave, the shadow-save
     debounce effect, the isDirty effect, handleMessage),
   - section block parsing and serialisation (src/frontend/src/types.ts).
   JavaScript strings are modelled by Lean String except in the block parser,
   where List Char is used so that splitting and joining on newline characters
   can be reasoned about structurally. -/

set_option maxRecDepth 8000

namespace NdxCraft

/-- Shadow record as exposed to the frontend by GetShadowFile in src/app.go:
a map with the fields content and isDirty.  The updated_at column written by
SaveShadowFile in src/db.go is never read back and is therefore not modelled. -/
structure ShadowRec where
  content : String
  isDirty : Bool
  deriving DecidableEq, Repr

/-- Rows of the shadow_files table of src/db.go, keyed by path.  A row stores
the pair (content, is_dirty). -/
def ShadowTable : Type := String → Option (String × Bool)

/-- GetShadowFile in src/db.go lines 251-262: a missing row (sql.ErrNoRows) is
mapped to ("", false), exactly the value a present row with empty content and a
clear dirty flag yields.  Database-level scan failures are outside this pure
model; the frontend-facing possibility of a failing lookup is threaded as an
Except argument where it matters (performOpenFile). -/
def GetShadowFile (table : ShadowTable) (path : String) : String × Bool :=
  match table path with
  | none => ("", false)
  | some (c, d) => (c, d)

/-- GetShadowFile wrapper in src/app.go lines 357-369: packages the database
result into the map consumed by the frontend. -/
def AppGetShadowFile (table : ShadowTable) (path : String) : ShadowRec :=
  { content := (GetShadowFile table path).1
    isDirty := (GetShadowFile table path).2 }

/-- SaveShadowFile in src/db.go lines 246-249: INSERT OR REPLACE, an upsert. -/
def SaveShadowFile (table : ShadowTable) (path content : String)
    (isDirty : Bool) : ShadowTable :=
  fun x => if x = path then some (content, isDirty) else table x

/-- ClearShadowFile in src/db.go lines 264-267: DELETE of the row. -/
def ClearShadowFile (table : ShadowTable) (path : String) : ShadowTable :=
  fun x => if x = path then none else table x

/-- Document state owned by the App component in src/unnamed/part_002:
fileName, content, savedContent and the derived isDirty flag. -/
structure DocState where
  fileName : String
  content : String
  savedContent : String
  isDirty : Bool
  deriving DecidableEq, Repr

/-- Effect at src/unnamed/part_002 lines 175-177: setIsDirty(content !==
savedContent), re-run whenever content or savedContent changes.  Every state
transition of the model ends by applying it, mirroring the fact that the React
effect runs after each committed update of those two fields. -/
def applyDirtyEffect (s : DocState) : DocState :=
  { s with isDirty := s.content != s.savedContent }

/-- Path resolution at the top of performOpenFile (src/unnamed/part_002 lines
623-626): a bare name with no separator is assumed to live in the content
directory. -/
def resolveOpenPath (path : String) : String :=
  if path.contains '/' || path.contains '\\' then path else "content/" ++ path

/-- Reconciliation core of performOpenFile (src/unnamed/part_002 lines
632-658): given the disk content and the outcome of the shadow lookup, choose
the canonical content.  The ok none case models a falsy shadow object or an
undefined content field, and the error case models a rejected lookup; both
fall back to the disk content. -/
def reconcileShadow (diskContent : String)
    (shadow : Except Unit (Option ShadowRec)) : String :=
  match shadow with
  | Except.error _ => diskContent
  | Except.ok none => diskContent
  | Except.ok (some r) => if r.isDirty then r.content else diskContent

/-- State update performed by performOpenFile (src/unnamed/part_002 lines
620-667) once the disk read succeeded: savedContent is set to the disk content
first, the canonical content is reconciled against the shadow lookup, the file
name is set to the requested path, and the isDirty effect recomputes the dirty
flag from the two content fields. -/
def performOpenFile (s : DocState) (path diskContent : String)
    (shadow : Except Unit (Option ShadowRec)) : DocState :=
  applyDirtyEffect
    { s with
      savedContent := diskContent
      content := reconcileShadow diskContent shadow
      fileName := path }

/-- Initial document template, the INITIAL_CONTENT constant of
src/unnamed/part_002 lines 26-63. -/
def INITIAL_CONTENT : String :=
  "= Welcome to ndxCraft\nAuthor Name <author@example.com>\nv1.0, 2024-05-20\n\n:toc:\n:icons: font\n\n== Introduction\n\nndxCraft is a modern AsciiDoc editor built with **React, Wails, and Vite**.\n\n== Getting Started\n\nClick the **Projects** button in the toolbar to open or create a project.\n\nIt features:\n* Real-time preview\n* Document Outline Navigation\n* AI-powered writing assistance\n* Focus modes for distraction-free writing\n\n== Editing Structure\n\nGo to the **Structure** tab on the left to drag and drop sections.\nThis allows you to reorganize large documents easily.\n\n== Code Example\n\n[source,typescript]\n----\nconst greeting = \"Hello World\";\nconsole.log(greeting);\n----\n\n== Conclusion\n\nEnjoy writing!\n"

/-- Untitled sentinel file name used throughout src/unnamed/part_002. -/
def untitledName : String := "untitled.adoc"

/-- Truthiness test guarding the persistence effects in src/unnamed/part_002
line 163: the file name is a real path when it is neither the empty string nor
the untitled sentinel. -/
def realPath (p : String) : Bool :=
  (p != "") && (p != untitledName)

/-- Whole-application model: the document state, the authoritative disk, the
shadow_files table, the pending debounce timeout with its captured
SaveShadowFile arguments, and a log of every SaveShadowFile call in order, so
that write ordering can be stated. -/
structure AppModel where
  doc : DocState
  disk : String → Option String
  shadow : ShadowTable
  timer : Option (String × String × Bool)
  shadowWrites : List (String × String × Bool)

/-- Shadow-save debounce effect at src/unnamed/part_002 lines 162-173:
whenever fileName, content or isDirty changes, the cleanup of the previous run
clears the pending timeout, and when the file name is a real path a new
timeout is armed capturing the current fileName, content and isDirty.  The
cleanup performs no write of its own. -/
def armShadowDebounce (m : AppModel) : AppModel :=
  if realPath m.doc.fileName then
    { m with timer := some (m.doc.fileName, m.doc.content, m.doc.isDirty) }
  else
    { m with timer := none }

/-- Expiry of the armed debounce timeout: SaveShadowFile runs with the
captured arguments (src/unnamed/part_002 lines 168-170) and the write is
recorded in the log. -/
def fireShadowTimer (m : AppModel) : AppModel :=
  match m.timer with
  | none => m
  | some (p, c, d) =>
      { m with
        shadow := SaveShadowFile m.shadow p c d
        shadowWrites := m.shadowWrites ++ [(p, c, d)]
        timer := none }

/-- Events that mutate the document state in src/unnamed/part_002, plus the
expiry of the debounce timeout.  edit covers the editor onChange path as well
as template insertion and AI apply (all funnel through setContent);
previewEdit is the preview-edit message; save is handleSave with the result of
the save dialog as it would be returned when the current file is untitled;
openFile is performOpenFile with the disk content and the shadow lookup
outcome; openDialog is handleOpen lines 582-585 (setContent plus setFileName,
with no savedContent update); discardUntitled is the untitled branch of
handleDiscardChanges lines 738-742. -/
inductive AppOp where
  | edit (c : String)
  | previewEdit (c : String)
  | save (selected : String)
  | openFile (path diskContent : String) (shadow : Except Unit (Option ShadowRec))
  | openDialog (filePath text : String)
  | discardUntitled
  | fireTimer

/-- One transition of the application model.  Every document mutation ends
with the isDirty effect and then the debounce effect, in that order, matching
the dependency lists of the two effects. -/
def appStep (op : AppOp) (m : AppModel) : AppModel :=
  match op with
  | AppOp.edit c =>
      armShadowDebounce { m with doc := applyDirtyEffect { m.doc with content := c } }
  | AppOp.previewEdit c =>
      armShadowDebounce { m with doc := applyDirtyEffect { m.doc with content := c } }
  | AppOp.save selected =>
      let filePath := if m.doc.fileName == untitledName then selected else m.doc.fileName
      if realPath filePath then
        armShadowDebounce
          { m with
            disk := fun x => if x = filePath then some m.doc.content else m.disk x
            shadow := SaveShadowFile m.shadow filePath m.doc.content false
            shadowWrites := m.shadowWrites ++ [(filePath, m.doc.content, false)]
            doc := applyDirtyEffect
              { m.doc with savedContent := m.doc.content, fileName := filePath } }
      else m
  | AppOp.openFile path diskContent shadow =>
      armShadowDebounce { m with doc := performOpenFile m.doc path diskContent shadow }
  | AppOp.openDialog filePath text =>
      armShadowDebounce
        { m with doc := applyDirtyEffect { m.doc with content := text, fileName := filePath } }
  | AppOp.discardUntitled =>
      armShadowDebounce
        { m with
          doc := applyDirtyEffect
            { m.doc with
              content := INITIAL_CONTENT
              savedContent := INITIAL_CONTENT } }
  | AppOp.fireTimer => fireShadowTimer m

/-- Initial application state matching the useState initialisers of
src/unnamed/part_002 lines 66-74. -/
def appInit : AppModel :=
  { doc :=
      { fileName := untitledName
        content := INITIAL_CONTENT
        savedContent := INITIAL_CONTENT
        isDirty := false }
    disk := fun _ => none
    shadow := fun _ => none
    timer := none
    shadowWrites := [] }

/-- Dirty-flag invariant stated by the specification: the flag equals the
comparison of canonical content with the saved baseline. -/
def dirtyInv (m : AppModel) : Prop :=
  m.doc.isDirty = (m.doc.content != m.doc.savedContent)

/-- Live store file name used by InitDB in src/db.go (the directory prefix is
irrelevant to the protocol and is dropped). -/
def dbPath : String := "settings.db"

/-- Rolling backup slot, dbPath plus the .bak suffix (src/db.go line 33). -/
def bakPath : String := dbPath ++ ".bak"

/-- Corruption marker, dbPath plus the .corrupt suffix (src/db.go line 40). -/
def corruptPath : String := dbPath ++ ".corrupt"

/-- File system contents keyed by path; file bytes are modelled as strings. -/
def FileSys : Type := String → Option String

/-- Pointwise update of a file system. -/
def updateFS (fs : FileSys) (k : String) (v : Option String) : FileSys :=
  fun x => if x = k then v else fs x

/-- Bytes of the fresh empty store that sql.Open plus initTables produce when
the store file is absent. -/
def emptyStore : String := ""

/-- Database manager state of src/db.go: the file system plus the open
connection, modelled by the bytes of the store the connection serves.  A none
connection would mean the application has no working store. -/
structure DBState where
  fs : FileSys
  conn : Option String

/-- InitDB, src/db.go lines 22-58, restricted to its store-integrity logic.
The structural check (isCorrupt, PRAGMA integrity_check on the file bytes) is
an opaque pure predicate on the bytes and is passed as an argument.  When the
live store exists and fails the check it is renamed aside to the corruption
marker; when it exists and passes, it is copied over the backup slot.  Then
the store is opened, creating a fresh empty store if no file is present. -/
def InitDB (isCorrupt : String → Bool) (fs : FileSys) : DBState :=
  let fs1 :=
    match fs dbPath with
    | some b =>
        if isCorrupt b then
          updateFS (updateFS fs corruptPath (some b)) dbPath none
        else
          updateFS fs bakPath (some b)
    | none => fs
  let bytes := (fs1 dbPath).getD emptyStore
  { fs := updateFS fs1 dbPath (some bytes), conn := some bytes }

/-- HasCorruption, src/db.go lines 60-62: the marker file exists. -/
def HasCorruption (s : DBState) : Bool :=
  (s.fs corruptPath).isSome

/-- RestoreBackup, src/db.go lines 64-95.  The copyFailure flag models an I/O
failure of copyFile, taken to leave the destination unchanged.  The boolean
result is true exactly when the Go function returns a nil error.  With no
backup present the function returns early, before closing the connection.  On
a copy failure the connection is reopened on whatever the live path holds.  On
success the live store is replaced by the backup, the connection is reopened
on it and the corruption marker is removed. -/
def RestoreBackup (s : DBState) (copyFailure : Bool) : DBState × Bool :=
  match s.fs bakPath with
  | none => (s, false)
  | some bak =>
      if copyFailure then
        let bytes := (s.fs dbPath).getD emptyStore
        ({ s with fs := updateFS s.fs dbPath (some bytes), conn := some bytes }, false)
      else
        let fs1 := updateFS s.fs dbPath (some bak)
        ({ fs := updateFS fs1 corruptPath none, conn := some bak }, true)

/-- Slice of the App component state touched by the preview message handler of
src/unnamed/part_002 lines 184-256: the canonical content, whether the code
editor is the active surface, whether visual edit mode is enabled, and the
code editor cursor position as set through editorRef setCursor (1-based line
and column). -/
structure UIState where
  content : String
  codeEditorActive : Bool
  visualEditEnabled : Bool
  cursorLine : Nat
  cursorCol : Nat
  deriving DecidableEq, Repr

/-- Messages posted by the preview iframe (src/unnamed/part_008) and consumed
by handleMessage in src/unnamed/part_002.  previewTab carries the resolved
source position as an optional (line, offset) pair, null when no tagged
ancestor block was found. -/
inductive PreviewMsg where
  | previewCursor (offset : Nat)
  | previewEdit (content : String)
  | previewTab (sourcePos : Option (Nat × Nat))
  | previewKeydown (key : String)
  | openBrowser (url : Option String)

/-- Local name for the empty string. -/
def emptyString : String := ""

/-- Message handler of src/unnamed/part_002 lines 184-256.  The
preview-cursor branch is an explicit no-op (lines 186-189).  The preview-edit
branch sets the canonical content to the payload verbatim (lines 190-196).
The preview-tab branch activates the code editor, disables visual edit mode,
and, when the payload holds a truthy line, places the cursor through
editorRef setCursor at that line and column 1 (lines 226-234); the clamped
target position of previewTabTargetPos plays no part in the placement.  The
preview-keydown and open-browser branches do not touch this state slice. -/
def handleMessage (s : UIState) (msg : PreviewMsg) : UIState :=
  match msg with
  | PreviewMsg.previewCursor _ => s
  | PreviewMsg.previewEdit c => { s with content := c }
  | PreviewMsg.previewTab sourcePos =>
      let s1 := { s with codeEditorActive := true, visualEditEnabled := false }
      match sourcePos with
      | some (line, _offset) =>
          if line != 0 then { s1 with cursorLine := line, cursorCol := 1 } else s1
      | none => s1
  | PreviewMsg.previewKeydown _ => s
  | PreviewMsg.openBrowser _ => s

/-- Section block produced by parseBlocks in src/frontend/src/types.ts:
a title, a heading level and the block's source lines.  Text is List Char
here so newline splitting and joining can be reasoned about structurally. -/
structure SectionBlock where
  title : List Char
  level : Nat
  lines : List (List Char)
  deriving DecidableEq, Repr

/-- Newline split, the JS content.split of types.ts line 49: the empty text
gives one empty line, and every newline character separates two lines. -/
def splitLines : List Char → List (List Char)
  | [] => [[]]
  | c :: cs =>
    match splitLines cs with
    | [] => [[]]
    | r :: rs => if c = '\n' then [] :: r :: rs else (c :: r) :: rs

/-- Newline join, the JS join of types.ts lines 90-92. -/
def joinLines : List (List Char) → List Char
  | [] => []
  | [l] => l
  | l :: l2 :: ls => l ++ '\n' :: joinLines (l2 :: ls)

/-- Target character index computed inside the preview-tab branch
(src/unnamed/part_002 lines 206-224): split the canonical content into lines,
take the 0-based index of the 1-based source line, and when it is in range add
the offset clamped to the line length to the character count of the preceding
lines (each plus one for its newline); otherwise stay at -1.  In part_002 this
value is computed and then never used when placing the cursor. -/
def previewTabTargetPos (content : String) (line offset : Nat) : Int :=
  let lines := splitLines content.toList
  let lineIndex := line - 1
  if lineIndex < lines.length then
    let charCount := ((lines.take lineIndex).map (fun l => l.length + 1)).sum
    let lineLength := (lines.getD lineIndex []).length
    let safeOffset := min offset lineLength
    Int.ofNat (charCount + safeOffset)
  else
    (-1)

/-- Whitespace class of the JS regular expression escape used in the header
pattern of types.ts line 56, restricted to the characters that occur in text
handled here (the full Unicode space list is irrelevant to the round-trip). -/
def jsWhitespace (c : Char) : Bool :=
  c = ' ' || c = '\t' || c = '\n' || c = '\r' ||
    c = Char.ofNat 11 || c = Char.ofNat 12 || c = Char.ofNat 160

/-- Header line test of types.ts line 56, the anchored pattern of one or more
equals signs, one or more whitespace characters and a nonempty remainder.  It
matches exactly when the line starts with at least one equals sign, the first
character after them is whitespace, and at least two characters follow the
equals signs.  On a match it yields the capture pair: the level is the number
of equals signs, and the title is the remainder after the greedy whitespace
run, backing off to the last whitespace character when nothing would remain. -/
def headerMatch (line : List Char) : Option (Nat × List Char) :=
  let e := (line.takeWhile (fun c => c = '=')).length
  let rest := line.drop e
  let w := (rest.takeWhile jsWhitespace).length
  if 1 ≤ e && 1 ≤ w && 2 ≤ rest.length then
    some (e, if w < rest.length then rest.drop w else rest.drop (w - 1))
  else
    none

/-- Accumulator of the forEach loop of parseBlocks (types.ts lines 50-53):
the blocks pushed so far and the current title, level and line buffer. -/
structure ParseAcc where
  blocks : List SectionBlock
  currentTitle : List Char
  currentLevel : Nat
  currentLines : List (List Char)

/-- Title of the implicit first block of types.ts line 52. -/
def preambleTitle : List Char := "Preamble".toList

/-- Loop body of parseBlocks (types.ts lines 55-73): on a header line the
accumulated buffer is pushed as a block when nonempty and a new block starts
with this line; otherwise the line joins the buffer. -/
def parseBlocksStep (acc : ParseAcc) (line : List Char) : ParseAcc :=
  match headerMatch line with
  | some (lvl, title) =>
      if 0 < acc.currentLines.length then
        { blocks := acc.blocks ++
            [{ title := acc.currentTitle
               level := acc.currentLevel
               lines := acc.currentLines }]
          currentTitle := title
          currentLevel := lvl
          currentLines := [line] }
      else
        { acc with currentTitle := title, currentLevel := lvl, currentLines := [line] }
  | none => { acc with currentLines := acc.currentLines ++ [line] }

/-- parseBlocks of types.ts lines 48-85: fold the loop body over the newline
split of the content, then push the final buffer when nonempty. -/
def parseBlocks (content : List Char) : List SectionBlock :=
  let acc := (splitLines content).foldl parseBlocksStep
    { blocks := [], currentTitle := preambleTitle, currentLevel := 0, currentLines := [] }
  if 0 < acc.currentLines.length then
    acc.blocks ++
      [{ title := acc.currentTitle
         level := acc.currentLevel
         lines := acc.currentLines }]
  else
    acc.blocks

/-- stringifyBlocks of types.ts lines 90-92: join each block's lines with
newlines, then join the blocks with newlines. -/
def stringifyBlocks (blocks : List SectionBlock) : List Char :=
  joinLines (blocks.map (fun b => joinLines b.lines))

/-- Lines carried by a parse accumulator: the lines of the pushed blocks in
order followed by the current buffer.  The parse loop extends this list by
exactly the processed line at each step. -/
def accLines (acc : ParseAcc) : List (List Char) :=
  (acc.blocks.map SectionBlock.lines).flatten ++ acc.currentLines

/-- Burst of edits folded over the model, each re-arming the debounce. -/
def editFold (m : AppModel) (cs : List String) : AppModel :=
  cs.foldl (fun acc c => appStep (AppOp.edit c) acc) m

/-- Concrete paths and contents for the witness instances below. -/
def pathA : String := "a.adoc"

def pathB : String := "b.adoc"

def contentX : String := "x"

def contentXY : String := "xy"

def diskZ : String := "z"

def diskY : String := "Y"

def openPathP : String := "notes.adoc"

def shadowX : ShadowRec := { content := "X", isDirty := true }

def helloWorld : String := "hello world"

/-- Concrete UI state before the preview-tab message of the C9 instance. -/
def uiStart : UIState :=
  { content := helloWorld
    codeEditorActive := false
    visualEditEnabled := true
    cursorLine := 3
    cursorCol := 9 }

def shadowProbe : String := "doc.adoc"

/-- Shadow table with no rows. -/
def emptyTable : ShadowTable := fun _ => none

/-- Shadow table whose only row is an empty-content clean record. -/
def emptyCleanTable : ShadowTable :=
  fun x => if x = shadowProbe then some (emptyString, false) else none

/-- Start state of the file-switch trace: file a.adoc open and clean. -/
def switchStart : AppModel :=
  { doc := { fileName := pathA, content := contentX, savedContent := contentX, isDirty := false }
    disk := fun x => if x = pathA then some contentX else if x = pathB then some diskZ else none
    shadow := fun _ => none
    timer := none
    shadowWrites := [] }

/-- One edit to a.adoc: a shadow write of the new content is now pending. -/
def switchAfterEdit : AppModel := appStep (AppOp.edit contentXY) switchStart

/-- Switch to b.adoc while the write for a.adoc is pending. -/
def switchAfterOpen : AppModel :=
  appStep (AppOp.openFile pathB diskZ (Except.ok none)) switchAfterEdit

/-- Expiry of whatever timeout survived the switch. -/
def switchAfterFire : AppModel := appStep AppOp.fireTimer switchAfterOpen

/-- Dirty state on a real path, used by the save witness. -/
def saveModel : AppModel :=
  { doc := { fileName := pathA, content := contentXY, savedContent := contentX, isDirty := true }
    disk := fun _ => none
    shadow := fun _ => none
    timer := none
    shadowWrites := [] }

/-- Two rapid edits inside one debounce window. -/
def burst : List String := [contentX, contentXY]

def badBytes : String := "garbage"

def bakBytes : String := "backup"

/-- File system holding a corrupt live store and a good backup. -/
def corruptedFS : FileSys :=
  fun x => if x = dbPath then some badBytes else if x = bakPath then some bakBytes else none

/-- Structural check that rejects every store, driving the corrupt branch. -/
def alwaysCorrupt : String → Bool := fun _ => true

/-- Arming the debounce touches only the timer, not the document. -/
theorem armShadowDebounce_doc (m : AppModel) : (armShadowDebounce m).doc = m.doc := by
  unfold armShadowDebounce
  split <;> rfl

/-- Arming the debounce leaves the disk untouched. -/
theorem armShadowDebounce_disk (m : AppModel) : (armShadowDebounce m).disk = m.disk := by
  unfold armShadowDebounce
  split <;> rfl

/-- Arming the debounce leaves the shadow table untouched. -/
theorem armShadowDebounce_shadow (m : AppModel) : (armShadowDebounce m).shadow = m.shadow := by
  unfold armShadowDebounce
  split <;> rfl

/-- Arming the debounce issues no write. -/
theorem armShadowDebounce_shadowWrites (m : AppModel) :
    (armShadowDebounce m).shadowWrites = m.shadowWrites := by
  unfold armShadowDebounce
  split <;> rfl

/-- C1: opening a path whose on-disk content is D always sets the
saved-content baseline to D; a shadow record with a set dirty flag makes its
content canonical with the dirty flag again derived from the comparison with
the baseline (so the document is dirty whenever the shadow content differs
from disk), while an absent record, a clean record, or a failed shadow lookup
leaves the disk content canonical and clean — the lookup error is not
propagated into content state. -/
theorem claim_C1_open_reconciliation (s : DocState) (path D : String)
    (shadow : Except Unit (Option ShadowRec)) :
    (performOpenFile s path D shadow).savedContent = D ∧
    (∀ r, shadow = Except.ok (some r) → r.isDirty = true →
      (performOpenFile s path D shadow).content = r.content ∧
      (performOpenFile s path D shadow).isDirty = (r.content != D) ∧
      (r.content ≠ D → (performOpenFile s path D shadow).isDirty = true)) ∧
    (shadow = Except.ok none →
      (performOpenFile s path D shadow).content = D ∧
      (performOpenFile s path D shadow).isDirty = false) ∧
    (∀ r, shadow = Except.ok (some r) → r.isDirty = false →
      (performOpenFile s path D shadow).content = D ∧
      (performOpenFile s path D shadow).isDirty = false) ∧
    (∀ e, shadow = Except.error e →
      (performOpenFile s path D shadow).content = D ∧
      (performOpenFile s path D shadow).isDirty = false) := by
  refine ⟨rfl, ?_, ?_, ?_, ?_⟩
  · intro r hr hd
    subst hr
    refine ⟨?_, ?_, ?_⟩
    · simp [performOpenFile, applyDirtyEffect, reconcileShadow, hd]
    · simp [performOpenFile, applyDirtyEffect, reconcileShadow, hd]
    · intro hne
      simp [performOpenFile, applyDirtyEffect, reconcileShadow, hd, bne_iff_ne, hne]
  · intro hr
    subst hr
    exact ⟨rfl, by simp [performOpenFile, applyDirtyEffect, reconcileShadow]⟩
  · intro r hr hd
    subst hr
    constructor
    · simp [performOpenFile, applyDirtyEffect, reconcileShadow, hd]
    · simp [performOpenFile, applyDirtyEffect, reconcileShadow, hd]
  · intro e he
    subst he
    exact ⟨rfl, by simp [performOpenFile, applyDirtyEffect, reconcileShadow]⟩

/-- Witness for C1: opening with disk content Y and a dirty shadow record
holding X yields canonical content X and a dirty document, and a failing
lookup yields the disk content. -/
theorem claim_C1_open_reconciliation_witness :
    (performOpenFile appInit.doc openPathP diskY (Except.ok (some shadowX))).content
      = shadowX.content ∧
    (performOpenFile appInit.doc openPathP diskY (Except.ok (some shadowX))).isDirty = true ∧
    (performOpenFile appInit.doc openPathP diskY (Except.error ())).content = diskY :=
  ⟨((claim_C1_open_reconciliation appInit.doc openPathP diskY
      (Except.ok (some shadowX))).2.1 shadowX rfl rfl).1,
   ((claim_C1_open_reconciliation appInit.doc openPathP diskY
      (Except.ok (some shadowX))).2.1 shadowX rfl rfl).2.2 (by decide),
   ((claim_C1_open_reconciliation appInit.doc openPathP diskY
      (Except.error ())).2.2.2.2 () rfl).1⟩

/-- C2: the dirty flag equals the comparison of content with savedContent in
the initial state, and every step of the model — content mutations, saves,
opens, discards and timer expiry alike — preserves that derivation, because
the isDirty effect recomputes the flag from exactly this comparison whenever
content or savedContent changes. -/
theorem claim_C2_dirty_derivation :
    dirtyInv appInit ∧ ∀ op m, dirtyInv m → dirtyInv (appStep op m) := by
  constructor
  · simp [dirtyInv, appInit]
  · intro op m h
    cases op with
    | edit c =>
        simp only [appStep]
        unfold dirtyInv
        rw [armShadowDebounce_doc]
        rfl
    | previewEdit c =>
        simp only [appStep]
        unfold dirtyInv
        rw [armShadowDebounce_doc]
        rfl
    | save selected =>
        simp only [appStep]
        split <;> split <;>
          first
            | exact h
            | (unfold dirtyInv; rw [armShadowDebounce_doc]; rfl)
    | openFile path diskContent shadow =>
        simp only [appStep]
        unfold dirtyInv
        rw [armShadowDebounce_doc]
        rfl
    | openDialog filePath text =>
        simp only [appStep]
        unfold dirtyInv
        rw [armShadowDebounce_doc]
        rfl
    | discardUntitled =>
        simp only [appStep]
        unfold dirtyInv
        rw [armShadowDebounce_doc]
        rfl
    | fireTimer =>
        simp only [appStep]
        unfold fireShadowTimer
        cases htimer : m.timer with
        | none => exact h
        | some t => exact h

/-- Witness for C2: the derivation holds in the initial state and after a
concrete edit. -/
theorem claim_C2_dirty_derivation_witness :
    dirtyInv (appStep (AppOp.edit contentXY) appInit) :=
  claim_C2_dirty_derivation.2 (AppOp.edit contentXY) appInit claim_C2_dirty_derivation.1

/-- C3: saving with a resolved real path writes the canonical content to disk
at that path, stores a clean shadow record there, and sets the saved baseline
to the content, leaving the document clean; the shadow write is logged. -/
theorem claim_C3_save (m : AppModel) (selected : String)
    (h : realPath m.doc.fileName = true) :
    ((appStep (AppOp.save selected) m).disk m.doc.fileName = some m.doc.content) ∧
    ((appStep (AppOp.save selected) m).shadow m.doc.fileName = some (m.doc.content, false)) ∧
    ((appStep (AppOp.save selected) m).doc.savedContent = m.doc.content) ∧
    ((appStep (AppOp.save selected) m).doc.isDirty = false) ∧
    ((appStep (AppOp.save selected) m).shadowWrites
      = m.shadowWrites ++ [(m.doc.fileName, m.doc.content, false)]) := by
  have h2 : (m.doc.fileName == untitledName) = false := by
    have h3 := h
    unfold realPath at h3
    rw [Bool.and_eq_true] at h3
    exact beq_eq_false_iff_ne.mpr (bne_iff_ne.mp h3.2)
  refine ⟨?_, ?_, ?_, ?_, ?_⟩ <;>
    simp [appStep, h2, h, armShadowDebounce_disk, armShadowDebounce_shadow,
      armShadowDebounce_doc, armShadowDebounce_shadowWrites, applyDirtyEffect,
      SaveShadowFile, bne_self_eq_false]

/-- Witness for C3: saving the dirty a.adoc document stores its content on
disk and as a clean shadow record, and clears the dirty flag. -/
theorem claim_C3_save_witness :
    ((appStep (AppOp.save emptyString) saveModel).disk pathA = some contentXY) ∧
    ((appStep (AppOp.save emptyString) saveModel).shadow pathA = some (contentXY, false)) ∧
    ((appStep (AppOp.save emptyString) saveModel).doc.isDirty = false) :=
  ⟨(claim_C3_save saveModel emptyString (by decide)).1,
   (claim_C3_save saveModel emptyString (by decide)).2.1,
   (claim_C3_save saveModel emptyString (by decide)).2.2.2.1⟩

/-- C7 (counterexample): the read interface does not distinguish absence from
an empty clean record — GetShadowFile returns the same value for a path with
no row and for a path whose row is ("", false), at both the database level and
the frontend-facing wrapper. -/
theorem claim_C7_counterexample :
    emptyTable shadowProbe = none ∧
    emptyCleanTable shadowProbe = some (emptyString, false) ∧
    GetShadowFile emptyTable shadowProbe = GetShadowFile emptyCleanTable shadowProbe ∧
    AppGetShadowFile emptyTable shadowProbe = AppGetShadowFile emptyCleanTable shadowProbe := by
  refine ⟨rfl, by decide, by decide, by decide⟩

/-- C7 (amended): GetShadowFile maps an absent row to ("", false), the same
value returned for a stored row with empty content and a clear dirty flag;
absence is therefore not distinguishable at the read interface, and both
cases behave as a clean record on open. -/
theorem claim_C7_absent_reads_as_empty_clean (table table2 : ShadowTable) (p q : String)
    (h : table p = none) (h2 : table2 q = some (emptyString, false)) :
    GetShadowFile table p = (emptyString, false) ∧
    GetShadowFile table p = GetShadowFile table2 q := by
  unfold GetShadowFile
  rw [h, h2]
  exact ⟨rfl, rfl⟩

/-- Witness for the amended C7 statement at the concrete tables. -/
theorem claim_C7_absent_reads_as_empty_clean_witness :
    GetShadowFile emptyTable shadowProbe = (emptyString, false) ∧
    GetShadowFile emptyTable shadowProbe = GetShadowFile emptyCleanTable shadowProbe :=
  claim_C7_absent_reads_as_empty_clean emptyTable emptyCleanTable shadowProbe shadowProbe
    rfl (by decide)

/-- C8: a preview-edit message with text z sets the canonical content to z
exactly, whatever content state was pending before, and a later message
overwrites an earlier one — last writer wins, no merge. -/
theorem claim_C8_preview_edit_verbatim (s : UIState) (z : String) :
    ((handleMessage s (PreviewMsg.previewEdit z)).content = z) ∧
    (∀ w, (handleMessage (handleMessage s (PreviewMsg.previewEdit w))
      (PreviewMsg.previewEdit z)).content = z) :=
  ⟨rfl, fun _ => rfl⟩

/-- Pointwise update of a file system hits the written key. -/
theorem updateFS_self (fs : FileSys) (k : String) (v : Option String) :
    updateFS fs k v k = v := by
  simp [updateFS]

/-- Pointwise update of a file system misses every other key. -/
theorem updateFS_ne (fs : FileSys) (k : String) (v : Option String) (x : String)
    (h : x ≠ k) : updateFS fs k v x = fs x := by
  simp [updateFS, h]

/-- C4: when the live store exists and fails the structural check, InitDB
renames it aside as the corruption marker and opens a fresh empty store, so
HasCorruption is true; from that state RestoreBackup either succeeds — the
live store and the open connection now equal the backup and the marker is
cleared — or fails, because no backup exists or the copy failed, with the
connection still open on a usable store. -/
theorem claim_C4_corruption_recovery (isCorrupt : String → Bool) (fs : FileSys) (b : String)
    (hdb : fs dbPath = some b) (hbad : isCorrupt b = true) :
    HasCorruption (InitDB isCorrupt fs) = true ∧
    (InitDB isCorrupt fs).conn = some emptyStore ∧
    (InitDB isCorrupt fs).fs dbPath = some emptyStore ∧
    ∀ copyFailure,
      ((RestoreBackup (InitDB isCorrupt fs) copyFailure).2 = true →
        ∃ bak, fs bakPath = some bak ∧
          (RestoreBackup (InitDB isCorrupt fs) copyFailure).1.conn = some bak ∧
          (RestoreBackup (InitDB isCorrupt fs) copyFailure).1.fs dbPath = some bak ∧
          HasCorruption (RestoreBackup (InitDB isCorrupt fs) copyFailure).1 = false) ∧
      ((RestoreBackup (InitDB isCorrupt fs) copyFailure).2 = false →
        ((RestoreBackup (InitDB isCorrupt fs) copyFailure).1.conn).isSome = true) := by
  have hcd : corruptPath ≠ dbPath := by decide
  have hdc : dbPath ≠ corruptPath := by decide
  have hbd : bakPath ≠ dbPath := by decide
  have hbc : bakPath ≠ corruptPath := by decide
  have hfs0 : (InitDB isCorrupt fs).fs
      = updateFS (updateFS (updateFS fs corruptPath (some b)) dbPath none) dbPath
          (some emptyStore) := by
    unfold InitDB
    rw [hdb]
    simp [hbad, updateFS_self]
  have hconn0 : (InitDB isCorrupt fs).conn = some emptyStore := by
    unfold InitDB
    rw [hdb]
    simp [hbad, updateFS_self]
  have hbak0 : (InitDB isCorrupt fs).fs bakPath = fs bakPath := by
    rw [hfs0, updateFS_ne _ _ _ _ hbd, updateFS_ne _ _ _ _ hbd, updateFS_ne _ _ _ _ hbc]
  refine ⟨?_, hconn0, ?_, ?_⟩
  · unfold HasCorruption
    rw [hfs0, updateFS_ne _ _ _ _ hcd, updateFS_ne _ _ _ _ hcd, updateFS_self]
    rfl
  · rw [hfs0, updateFS_self]
  · intro copyFailure
    cases hbak : fs bakPath with
    | none =>
        have hnone : RestoreBackup (InitDB isCorrupt fs) copyFailure
            = (InitDB isCorrupt fs, false) := by
          unfold RestoreBackup
          rw [hbak0, hbak]
        rw [hnone]
        constructor
        · intro habs
          exact absurd habs (by simp)
        · intro _
          rw [hconn0]
          rfl
    | some bak =>
        cases copyFailure with
        | true =>
            have htrue : RestoreBackup (InitDB isCorrupt fs) true
                = ({ (InitDB isCorrupt fs) with
                      fs := updateFS (InitDB isCorrupt fs).fs dbPath
                        (some (((InitDB isCorrupt fs).fs dbPath).getD emptyStore))
                      conn := some (((InitDB isCorrupt fs).fs dbPath).getD emptyStore) },
                    false) := by
              unfold RestoreBackup
              rw [hbak0, hbak]
              rfl
            rw [htrue]
            constructor
            · intro habs
              exact absurd habs (by simp)
            · intro _
              rfl
        | false =>
            have hfalse : RestoreBackup (InitDB isCorrupt fs) false
                = ({ fs := updateFS (updateFS (InitDB isCorrupt fs).fs dbPath (some bak))
                        corruptPath none
                     conn := some bak },
                    true) := by
              unfold RestoreBackup
              rw [hbak0, hbak]
              rfl
            rw [hfalse]
            constructor
            · intro _
              refine ⟨bak, rfl, rfl, ?_, ?_⟩
              · show updateFS (updateFS (InitDB isCorrupt fs).fs dbPath (some bak))
                    corruptPath none dbPath = some bak
                rw [updateFS_ne _ _ _ _ hdc, updateFS_self]
              · unfold HasCorruption
                show (updateFS (updateFS (InitDB isCorrupt fs).fs dbPath (some bak))
                    corruptPath none corruptPath).isSome = false
                rw [updateFS_self]
                rfl
            · intro habs
              exact absurd habs (by simp)

/-- Witness for C4: with a corrupt live store and a good backup on disk, the
marker exists after startup, and a failed restore still leaves an open
connection. -/
theorem claim_C4_corruption_recovery_witness :
    HasCorruption (InitDB alwaysCorrupt corruptedFS) = true ∧
    ((RestoreBackup (InitDB alwaysCorrupt corruptedFS) true).1.conn).isSome = true := by
  have h := claim_C4_corruption_recovery alwaysCorrupt corruptedFS badBytes (by decide) rfl
  exact ⟨h.1, (h.2.2.2 true).2 (by decide)⟩

/-- C5 (counterexample): an edit to a.adoc leaves a pending shadow write for
a.adoc; switching to b.adoc and letting the surviving timeout expire produces
a single shadow write that targets b.adoc, and a.adoc's row was never
written — no final flush of the old path's pending content happened. -/
theorem claim_C5_counterexample :
    switchAfterEdit.timer = some (pathA, contentXY, true) ∧
    switchAfterOpen.shadowWrites = [] ∧
    switchAfterFire.shadowWrites = [(pathB, diskZ, false)] ∧
    switchAfterFire.shadow pathA = none := by
  decide

/-- C5 (amended): when the active path changes while a debounced shadow write
is pending, the cleanup cancels the timeout and the pending write is
discarded without being issued — the switch performs no shadow write at all,
the table is untouched, and the re-armed timeout targets the new path.  Edits
made within the debounce delay before the switch therefore never reach the
shadow store on this path. -/
theorem claim_C5_switch_discards_pending (m : AppModel) (path diskContent : String)
    (shadow : Except Unit (Option ShadowRec)) (t : String × String × Bool)
    (_hpending : m.timer = some t) :
    ((appStep (AppOp.openFile path diskContent shadow) m).shadowWrites = m.shadowWrites) ∧
    ((appStep (AppOp.openFile path diskContent shadow) m).shadow = m.shadow) ∧
    (realPath path = true →
      (appStep (AppOp.openFile path diskContent shadow) m).timer
        = some (path, (appStep (AppOp.openFile path diskContent shadow) m).doc.content,
            (appStep (AppOp.openFile path diskContent shadow) m).doc.isDirty)) ∧
    (realPath path = false →
      (appStep (AppOp.openFile path diskContent shadow) m).timer = none) := by
  refine ⟨?_, ?_, ?_, ?_⟩
  · simp only [appStep]
    rw [armShadowDebounce_shadowWrites]
  · simp only [appStep]
    rw [armShadowDebounce_shadow]
  · intro hp
    simp [appStep, armShadowDebounce, performOpenFile, applyDirtyEffect, hp]
  · intro hp
    simp [appStep, armShadowDebounce, performOpenFile, applyDirtyEffect, hp]

/-- Witness for the amended C5 statement on the concrete switch trace. -/
theorem claim_C5_switch_discards_pending_witness :
    (switchAfterOpen.shadowWrites = switchAfterEdit.shadowWrites) ∧
    (switchAfterOpen.timer
      = some (pathB, switchAfterOpen.doc.content, switchAfterOpen.doc.isDirty)) := by
  have h := claim_C5_switch_discards_pending switchAfterEdit pathB diskZ (Except.ok none)
    (pathA, contentXY, true) (by decide)
  exact ⟨h.1, h.2.2.1 (by decide)⟩

/-- Editing keeps the active file name. -/
theorem appStep_edit_fileName (m : AppModel) (c : String) :
    (appStep (AppOp.edit c) m).doc.fileName = m.doc.fileName := by
  simp only [appStep]
  rw [armShadowDebounce_doc]
  rfl

/-- Editing keeps the saved baseline. -/
theorem appStep_edit_savedContent (m : AppModel) (c : String) :
    (appStep (AppOp.edit c) m).doc.savedContent = m.doc.savedContent := by
  simp only [appStep]
  rw [armShadowDebounce_doc]
  rfl

/-- Editing issues no shadow write. -/
theorem appStep_edit_shadowWrites (m : AppModel) (c : String) :
    (appStep (AppOp.edit c) m).shadowWrites = m.shadowWrites := by
  simp only [appStep]
  rw [armShadowDebounce_shadowWrites]

/-- Editing leaves the shadow table untouched. -/
theorem appStep_edit_shadow (m : AppModel) (c : String) :
    (appStep (AppOp.edit c) m).shadow = m.shadow := by
  simp only [appStep]
  rw [armShadowDebounce_shadow]

/-- Editing on a real path re-arms the timeout with the new content and the
recomputed dirty flag. -/
theorem appStep_edit_timer (m : AppModel) (c : String)
    (hreal : realPath m.doc.fileName = true) :
    (appStep (AppOp.edit c) m).timer
      = some (m.doc.fileName, c, c != m.doc.savedContent) := by
  simp only [appStep]
  simp [armShadowDebounce, applyDirtyEffect, hreal]

/-- A burst of edits keeps the file name, baseline, shadow table and write
log, and leaves the timeout armed with the last edit's content. -/
theorem editFold_props (cs : List String) : ∀ (m : AppModel) (h : cs ≠ []),
    (editFold m cs).doc.fileName = m.doc.fileName ∧
    (editFold m cs).doc.savedContent = m.doc.savedContent ∧
    (editFold m cs).shadowWrites = m.shadowWrites ∧
    (editFold m cs).shadow = m.shadow ∧
    (realPath m.doc.fileName = true →
      (editFold m cs).timer
        = some (m.doc.fileName, cs.getLast h, cs.getLast h != m.doc.savedContent)) := by
  induction cs with
  | nil => intro m h; exact absurd rfl h
  | cons c cs' ih =>
    intro m h
    cases cs' with
    | nil =>
        refine ⟨appStep_edit_fileName m c, appStep_edit_savedContent m c,
          appStep_edit_shadowWrites m c, appStep_edit_shadow m c, ?_⟩
        intro hreal
        simpa using appStep_edit_timer m c hreal
    | cons c2 cs'' =>
        have ih2 := ih (appStep (AppOp.edit c) m) (by simp)
        have e : editFold m (c :: c2 :: cs'')
            = editFold (appStep (AppOp.edit c) m) (c2 :: cs'') := rfl
        rw [e]
        refine ⟨?_, ?_, ?_, ?_, ?_⟩
        · rw [ih2.1, appStep_edit_fileName]
        · rw [ih2.2.1, appStep_edit_savedContent]
        · rw [ih2.2.2.1, appStep_edit_shadowWrites]
        · rw [ih2.2.2.2.1, appStep_edit_shadow]
        · intro hreal
          have hreal2 : realPath (appStep (AppOp.edit c) m).doc.fileName = true := by
            rw [appStep_edit_fileName]
            exact hreal
          rw [ih2.2.2.2.2 hreal2, appStep_edit_fileName, appStep_edit_savedContent]
          simp [List.getLast_cons]

/-- C6: during a burst of edits to the same real path no shadow write occurs,
and the single timeout expiry after the burst issues exactly one write,
carrying the last edit's content (and its recomputed dirty flag); the table
row for the path then holds that content. -/
theorem claim_C6_debounce_coalesces (m : AppModel) (cs : List String) (h : cs ≠ [])
    (hreal : realPath m.doc.fileName = true) :
    ((editFold m cs).shadowWrites = m.shadowWrites) ∧
    ((appStep AppOp.fireTimer (editFold m cs)).shadowWrites
      = m.shadowWrites
          ++ [(m.doc.fileName, cs.getLast h, cs.getLast h != m.doc.savedContent)]) ∧
    ((appStep AppOp.fireTimer (editFold m cs)).shadow m.doc.fileName
      = some (cs.getLast h, cs.getLast h != m.doc.savedContent)) := by
  obtain ⟨h1, h2, h3, h4, h5⟩ := editFold_props cs m h
  have ht := h5 hreal
  refine ⟨h3, ?_, ?_⟩
  · simp only [appStep]
    unfold fireShadowTimer
    rw [ht]
    simpa using h3
  · simp only [appStep]
    unfold fireShadowTimer
    rw [ht]
    simp [SaveShadowFile]

/-- Witness for C6 on a concrete two-edit burst: one write, with the last
edit's content. -/
theorem claim_C6_debounce_coalesces_witness :
    (appStep AppOp.fireTimer (editFold switchStart burst)).shadowWrites
      = [(pathA, contentXY, true)] := by
  have h := claim_C6_debounce_coalesces switchStart burst (by decide) (by decide)
  rw [h.2.1]
  decide

/-- C9 (code bug): on canonical content "hello world" a preview-tab message
with resolved position line 1, offset 5 makes the part_002 handler place the
cursor at line 1, column 1 — an applied in-line offset of 0 — even though the
branch computes the clamped target min(5, 11) = 5 (previewTabTargetPos) and
the claim requires that clamped offset to be the one applied. -/
theorem claim_C9_clamped_offset_not_applied :
    (handleMessage uiStart (PreviewMsg.previewTab (some (1, 5)))).cursorLine = 1 ∧
    (handleMessage uiStart (PreviewMsg.previewTab (some (1, 5)))).cursorCol = 1 ∧
    previewTabTargetPos helloWorld 1 5 = Int.ofNat 5 ∧
    min 5 helloWorld.length = 5 ∧
    (handleMessage uiStart (PreviewMsg.previewTab (some (1, 5)))).cursorCol - 1
      ≠ min 5 helloWorld.length := by
  refine ⟨rfl, rfl, by decide, by decide, by decide⟩

/-- Unfolding equation of splitLines on a cons. -/
theorem splitLines_cons (c : Char) (cs : List Char) :
    splitLines (c :: cs)
      = match splitLines cs with
        | [] => [[]]
        | r :: rs => if c = '\n' then [] :: r :: rs else (c :: r) :: rs := rfl

/-- Splitting never yields an empty list of lines. -/
theorem splitLines_ne_nil (l : List Char) : splitLines l ≠ [] := by
  cases l with
  | nil => simp [splitLines]
  | cons c cs =>
    rw [splitLines_cons]
    cases h : splitLines cs with
    | nil => simp
    | cons r rs =>
      show (if c = '\n' then [] :: r :: rs else (c :: r) :: rs) ≠ []
      split <;> simp

/-- Unfolding equation of joinLines on two or more groups. -/
theorem joinLines_cons_cons (l l2 : List Char) (ls : List (List Char)) :
    joinLines (l :: l2 :: ls) = l ++ '\n' :: joinLines (l2 :: ls) := rfl

/-- Joining undoes splitting. -/
theorem joinLines_splitLines (l : List Char) : joinLines (splitLines l) = l := by
  induction l with
  | nil => rfl
  | cons c cs ih =>
    rw [splitLines_cons]
    cases h : splitLines cs with
    | nil => exact absurd h (splitLines_ne_nil cs)
    | cons r rs =>
      rw [h] at ih
      show joinLines (if c = '\n' then [] :: r :: rs else (c :: r) :: rs) = c :: cs
      by_cases hc : c = '\n'
      · subst hc
        rw [if_pos rfl, joinLines_cons_cons, ih]
        rfl
      · rw [if_neg hc]
        cases rs with
        | nil =>
            have hr : r = cs := ih
            show c :: r = c :: cs
            rw [hr]
        | cons r2 rs2 =>
            show c :: joinLines (r :: r2 :: rs2) = c :: cs
            rw [ih]

/-- Joining distributes over the append of two nonempty group lists, with one
newline at the seam. -/
theorem joinLines_append (a b : List (List Char)) (ha : a ≠ []) (hb : b ≠ []) :
    joinLines (a ++ b) = joinLines a ++ '\n' :: joinLines b := by
  induction a with
  | nil => exact absurd rfl ha
  | cons x xs ih =>
    cases xs with
    | nil =>
      cases b with
      | nil => exact absurd rfl hb
      | cons y ys =>
        show joinLines (x :: y :: ys) = joinLines [x] ++ '\n' :: joinLines (y :: ys)
        rw [joinLines_cons_cons]
        rfl
    | cons x2 xs2 =>
      have ih2 := ih (by simp)
      show joinLines (x :: ((x2 :: xs2) ++ b)) = joinLines (x :: x2 :: xs2) ++ '\n' :: joinLines b
      have e1 : (x2 :: xs2) ++ b = x2 :: (xs2 ++ b) := rfl
      rw [e1, joinLines_cons_cons, joinLines_cons_cons, ← e1, ih2]
      simp [List.append_assoc]

/-- Joining the per-group joins of nonempty groups equals joining the
flattened groups. -/
theorem joinLines_map_flatten (groups : List (List (List Char)))
    (h : ∀ g ∈ groups, g ≠ []) :
    joinLines (groups.map joinLines) = joinLines groups.flatten := by
  induction groups with
  | nil => rfl
  | cons g gs ih =>
    cases gs with
    | nil =>
      show joinLines [joinLines g] = joinLines (g ++ [])
      rw [List.append_nil]
      rfl
    | cons g2 gs2 =>
      have hg : g ≠ [] := h g (by simp)
      have hrest : ∀ x ∈ g2 :: gs2, x ≠ [] := fun x hx => h x (by simp [hx])
      have hg2 : g2 ≠ [] := h g2 (by simp)
      have hjoin : (g2 :: gs2).flatten ≠ [] := by
        show g2 ++ gs2.flatten ≠ []
        intro habs
        exact hg2 (List.append_eq_nil.mp habs).1
      show joinLines (joinLines g :: joinLines g2 :: (gs2.map joinLines))
        = joinLines ((g :: g2 :: gs2).flatten)
      rw [joinLines_cons_cons]
      have e2 : joinLines g2 :: gs2.map joinLines = (g2 :: gs2).map joinLines := rfl
      rw [e2, ih hrest]
      have e3 : (g :: g2 :: gs2).flatten = g ++ (g2 :: gs2).flatten := rfl
      rw [e3, joinLines_append g ((g2 :: gs2).flatten) hg hjoin]

/-- One parse step extends the accumulated lines by exactly the processed
line. -/
theorem parseBlocksStep_accLines (acc : ParseAcc) (line : List Char) :
    accLines (parseBlocksStep acc line) = accLines acc ++ [line] := by
  cases hm : headerMatch line with
  | none =>
    simp only [parseBlocksStep, hm]
    unfold accLines
    simp [List.append_assoc]
  | some p =>
    obtain ⟨lvl, title⟩ := p
    simp only [parseBlocksStep, hm]
    by_cases hlen : 0 < acc.currentLines.length
    · rw [if_pos hlen]
      unfold accLines
      simp [List.append_assoc]
    · rw [if_neg hlen]
      have hnil : acc.currentLines = [] :=
        List.length_eq_zero.mp (Nat.eq_zero_of_not_pos hlen)
      unfold accLines
      simp [hnil]

/-- One parse step keeps every pushed block nonempty. -/
theorem parseBlocksStep_blocks_ne (acc : ParseAcc) (line : List Char)
    (h : ∀ b ∈ acc.blocks, b.lines ≠ []) :
    ∀ b ∈ (parseBlocksStep acc line).blocks, b.lines ≠ [] := by
  intro b hb
  cases hm : headerMatch line with
  | none =>
    simp only [parseBlocksStep, hm] at hb
    exact h b hb
  | some p =>
    obtain ⟨lvl, title⟩ := p
    simp only [parseBlocksStep, hm] at hb
    by_cases hlen : 0 < acc.currentLines.length
    · rw [if_pos hlen] at hb
      have hb2 : b ∈ acc.blocks ++ [{ title := acc.currentTitle, level := acc.currentLevel, lines := acc.currentLines }] := hb
      rcases List.mem_append.mp hb2 with h1 | h2
      · exact h b h1
      · rw [List.mem_singleton] at h2
        rw [h2]
        exact List.length_pos.mp hlen
    · rw [if_neg hlen] at hb
      have hb2 : b ∈ acc.blocks := hb
      exact h b hb2

/-- One parse step leaves a nonempty current buffer. -/
theorem parseBlocksStep_cur_ne (acc : ParseAcc) (line : List Char) :
    (parseBlocksStep acc line).currentLines ≠ [] := by
  cases hm : headerMatch line with
  | none =>
    simp only [parseBlocksStep, hm]
    simp
  | some p =>
    obtain ⟨lvl, title⟩ := p
    simp only [parseBlocksStep, hm]
    by_cases hlen : 0 < acc.currentLines.length
    · rw [if_pos hlen]
      simp
    · rw [if_neg hlen]
      simp

/-- Folding the parse step accumulates exactly the processed lines. -/
theorem foldl_parseBlocksStep_accLines (ls : List (List Char)) :
    ∀ acc, accLines (ls.foldl parseBlocksStep acc) = accLines acc ++ ls := by
  induction ls with
  | nil => intro acc; simp
  | cons l ls' ih =>
    intro acc
    show accLines (ls'.foldl parseBlocksStep (parseBlocksStep acc l))
      = accLines acc ++ (l :: ls')
    rw [ih, parseBlocksStep_accLines, List.append_assoc]
    rfl

/-- Folding the parse step keeps every pushed block nonempty. -/
theorem foldl_parseBlocksStep_blocks_ne (ls : List (List Char)) :
    ∀ acc, (∀ b ∈ acc.blocks, b.lines ≠ []) →
      ∀ b ∈ (ls.foldl parseBlocksStep acc).blocks, b.lines ≠ [] := by
  induction ls with
  | nil => intro acc h; exact h
  | cons l ls' ih =>
    intro acc h
    exact ih (parseBlocksStep acc l) (parseBlocksStep_blocks_ne acc l h)

/-- Folding the parse step preserves a nonempty current buffer. -/
theorem foldl_parseBlocksStep_cur_preserved (ls : List (List Char)) :
    ∀ acc : ParseAcc, acc.currentLines ≠ []
      → (ls.foldl parseBlocksStep acc).currentLines ≠ [] := by
  induction ls with
  | nil => intro acc h; exact h
  | cons l ls' ih =>
    intro acc _
    exact ih (parseBlocksStep acc l) (parseBlocksStep_cur_ne acc l)

/-- Folding the parse step over a nonempty line list leaves a nonempty
current buffer. -/
theorem foldl_parseBlocksStep_cur_ne (ls : List (List Char)) (acc : ParseAcc)
    (h : ls ≠ []) : (ls.foldl parseBlocksStep acc).currentLines ≠ [] := by
  cases ls with
  | nil => exact absurd rfl h
  | cons l ls' =>
    exact foldl_parseBlocksStep_cur_preserved ls' (parseBlocksStep acc l)
      (parseBlocksStep_cur_ne acc l)

/-- C10: stringifyBlocks undoes parseBlocks — splitting a document into
header-delimited section blocks and rejoining the blocks' lines reproduces
the original text character for character, so a reorder commit that keeps the
original block order leaves the content unchanged. -/
theorem claim_C10_parse_stringify_roundtrip (content : List Char) :
    stringifyBlocks (parseBlocks content) = content := by
  unfold parseBlocks stringifyBlocks
  set acc := (splitLines content).foldl parseBlocksStep
    { blocks := [], currentTitle := preambleTitle, currentLevel := 0, currentLines := [] }
    with hacc
  have hcur : acc.currentLines ≠ [] := by
    rw [hacc]
    exact foldl_parseBlocksStep_cur_ne _ _ (splitLines_ne_nil content)
  rw [if_pos (List.length_pos.mpr hcur)]
  have hblocksne : ∀ b ∈ acc.blocks
      ++ [{ title := acc.currentTitle, level := acc.currentLevel, lines := acc.currentLines }],
      b.lines ≠ [] := by
    intro b hb
    rcases List.mem_append.mp hb with h1 | h2
    · refine foldl_parseBlocksStep_blocks_ne (splitLines content)
        { blocks := [], currentTitle := preambleTitle, currentLevel := 0, currentLines := [] }
        (fun b' hb' => absurd hb' (by simp)) b ?_
      exact h1
    · rw [List.mem_singleton] at h2
      rw [h2]
      exact hcur
  have hmap : (acc.blocks
      ++ [({ title := acc.currentTitle, level := acc.currentLevel,
             lines := acc.currentLines } : SectionBlock)]).map
        (fun b => joinLines b.lines)
      = ((acc.blocks
      ++ [({ title := acc.currentTitle, level := acc.currentLevel,
             lines := acc.currentLines } : SectionBlock)]).map
        SectionBlock.lines).map joinLines := by
    rw [List.map_map]
    rfl
  rw [hmap]
  rw [joinLines_map_flatten _ (by
    intro g hg
    rcases List.mem_map.mp hg with ⟨b, hb, he⟩
    rw [← he]
    exact hblocksne b hb)]
  have hflat : ((acc.blocks
      ++ [({ title := acc.currentTitle, level := acc.currentLevel,
             lines := acc.currentLines } : SectionBlock)]).map
        SectionBlock.lines).flatten = accLines acc := by
    unfold accLines
    simp [List.map_append, List.flatten_append]
  rw [hflat]
  have hacc2 : accLines acc = splitLines content := by
    rw [hacc, foldl_parseBlocksStep_accLines]
    unfold accLines
    simp
  rw [hacc2, joinLines_splitLines]

end NdxCraft
